/-
Verification development for mite (a minimal templated static site generator
written in C, single source file mite.c).

This file gives a shallow embedding of the algorithmic core of mite.c:

* the inline markup engine (`parse_inline`) and the block renderer
  (`render_md_to_html`), modelled over a fixed document `d : List Char`
  with an explicit cursor index; the C NUL terminator is modelled by
  `cAt` returning the NUL character past the end of the list, and the
  block renderer is run on `md ++ [nulC]`, mirroring the `'\0'` that
  `render_page` appends (and `md->count` counting it);
* the template transpiler helpers (`sv_trim_empty_lines`,
  `sv_to_byte_array`, `byte_array_to_c_code`), modelled at the byte
  level (`List Nat`, each entry a byte value);
* the key/value store (`site_map_set` / `site_map_get` / `site_map_has` /
  `site_map_equals`) of the generated (second-stage) program;
* `find_template` and the per-page dispatch block that
  `second_stage_codegen` emits into the generated program's `main`,
  together with the `INCLUDE` macro;
* file discovery (`search_files`, `register_md_file`,
  `register_mite_file`) over an abstract directory tree.

Recursions that the C code performs with raw pointer scans are modelled
either structurally on list suffixes or with an explicit fuel parameter
(`parseInlineF`, `renderLoopF`); the top-level wrappers supply fuel
`length + 1`, one unit per loop iteration, which is enough because every
iteration of the C loops advances the cursor. A `CResult` value records
whether the modelled C code runs to completion (`ok`) or aborts /
diverges (`fatal`: `exit(1)` in `find_template`, and the out-of-bounds
`da_append_many` reached when a fence's `code_end - trimmed` underflows).
-/
import Mathlib

set_option linter.unusedVariables false

/-- Outcome of running a piece of the (generated or generator) C program:
either it completes with a value, or it fatally terminates (an `exit(1)`,
an assertion failure, or undefined behaviour from a negative length cast
to `size_t`). -/
inductive CResult (α : Type) where
  | ok (a : α) : CResult α
  | fatal : CResult α
deriving DecidableEq

/-- The NUL character, which terminates every C string / buffer. -/
def nulC : Char := Char.ofNat 0

/-- Read byte `i` of buffer `d`; past the end of the modelled buffer the C
code always sees the `'\0'` terminator. -/
def cAt (d : List Char) (i : Nat) : Char := d.getD i nulC

/-- `slice d a b` is the byte range `[a, b)` of `d` (the C idiom
`da_append_many(out, d + a, b - a)` with `a ≤ b`). -/
def sliceD (d : List Char) (a b : Nat) : List Char := (d.drop a).take (b - a)

/-- mite.c `da_append_escape_html`, one character. -/
def escapeHtmlChar (c : Char) : List Char :=
  if c = '<' then "&lt;".data
  else if c = '>' then "&gt;".data
  else if c = '&' then "&amp;".data
  else if c = '\'' then "&#39;".data
  else if c = '"' then "&quot;".data
  else [c]

/-- mite.c `da_append_escape_html` over a byte range. -/
def escapeHtml (l : List Char) : List Char := l.flatMap escapeHtmlChar

/-- mite.c `starts_with(line, prefix)`: `strncmp(line, prefix, strlen(prefix)) == 0`. -/
def startsWithAt (d : List Char) (i : Nat) (pre : List Char) : Bool :=
  pre.isPrefixOf (d.drop i)

/-- mite.c `word_starts_with`: `starts_with` and the byte after the match is
not a space (the terminator `'\0'` counts as not-a-space). -/
def word_starts_with_at (d : List Char) (i : Nat) (pre : List Char) : Bool :=
  startsWithAt d i pre && cAt d (i + pre.length) != ' '

/-- Inner match loop of mite.c `search_str_until_newline`: the needle must
match without running into a newline or the terminator. -/
def matchesPfxNoNl : List Char → List Char → Bool
  | [], _ => true
  | _ :: _, [] => false
  | n :: ns, h :: hs =>
    if h == nulC || h == '\n' then false
    else if h == n then matchesPfxNoNl ns hs else false

/-- Scanning loop of mite.c `search_str_until_newline`, over the suffix of
the buffer starting at the search position; returns the offset of the match. -/
def searchOffGo (ndl : List Char) : List Char → Option Nat
  | [] => none
  | h :: hs =>
    if h == nulC || h == '\n' then none
    else if matchesPfxNoNl ndl (h :: hs) then some 0
    else (searchOffGo ndl hs).map (· + 1)

/-- mite.c `search_str_until_newline(d + i, ndl)`, returning the absolute
index of the match (the C code returns a pointer). An empty needle matches
immediately, as in the C code. -/
def searchUntilNl (d : List Char) (ndl : List Char) (i : Nat) : Option Nat :=
  if ndl.isEmpty then some i else (searchOffGo ndl (d.drop i)).map (· + i)

/-- mite.c `word_ends_with(d + i, ndl)`: the match is rejected when the byte
just before it is a space. -/
def word_ends_with (d : List Char) (ndl : List Char) (i : Nat) : Option Nat :=
  match searchUntilNl d ndl i with
  | none => none
  | some e => if cAt d (e - 1) = ' ' then none else some e

/-- Inner match loop of C `strstr`: a plain prefix match that stops at the
terminator. -/
def matchesPfxPlain : List Char → List Char → Bool
  | [], _ => true
  | _ :: _, [] => false
  | n :: ns, h :: hs =>
    if h == nulC then false
    else if h == n then matchesPfxPlain ns hs else false

/-- Scanning loop of C `strstr` over a buffer suffix; unlike
`search_str_until_newline` it crosses newlines and stops only at the
terminator. -/
def strstrOffGo (ndl : List Char) : List Char → Option Nat
  | [] => if matchesPfxPlain ndl [] then some 0 else none
  | h :: hs =>
    if matchesPfxPlain ndl (h :: hs) then some 0
    else if h == nulC then none
    else (strstrOffGo ndl hs).map (· + 1)

/-- C `strstr(d + i, ndl)` as an absolute index. -/
def strstrIdx (d : List Char) (ndl : List Char) (i : Nat) : Option Nat :=
  (strstrOffGo ndl (d.drop i)).map (· + i)

/-- Offset of the first newline or terminator in a buffer suffix
(the `while (*line_end && *line_end != '\n') line_end++;` scan). -/
def firstStopOff : List Char → Nat
  | [] => 0
  | h :: hs => if h == nulC || h == '\n' then 0 else firstStopOff hs + 1

/-- Index of the end of the line starting at `i` (first `'\n'` or `'\0'`). -/
def lineEndIdx (d : List Char) (i : Nat) : Nat := i + firstStopOff (d.drop i)

/-- Offset skipped by `while (*t == ' ' || *t == '\t' || *t == '\r') t++;`. -/
def blanksOff : List Char → Nat
  | [] => 0
  | h :: hs => if h == ' ' || h == '\t' || h == '\r' then blanksOff hs + 1 else 0

/-- The `trimmed` pointer of the block renderer: leading spaces, tabs and
carriage returns of the current line are skipped. -/
def skipBlanks (d : List Char) (i : Nat) : Nat := i + blanksOff (d.drop i)

/-- Offset walked by mite.c `skip_after_newline`: up to and including the
next `'\n'`, stopping at the terminator. -/
def skipAfterNlOff : List Char → Nat
  | [] => 0
  | h :: hs => if h == nulC then 0 else if h == '\n' then 1 else skipAfterNlOff hs + 1

/-- mite.c `skip_after_newline` as an index transformer. -/
def skipAfterNl (d : List Char) (i : Nat) : Nat := i + skipAfterNlOff (d.drop i)

/-- Length of the leading `#` run of a heading line. -/
def hashOff : List Char → Nat
  | [] => 0
  | h :: hs => if h == '#' then hashOff hs + 1 else 0

/-- Length of the space run after the `#` run of a heading line. -/
def spacesOff : List Char → Nat
  | [] => 0
  | h :: hs => if h == ' ' then spacesOff hs + 1 else 0

/-- The backward scan of the figure branch,
`while (format > end_text && *(format-1) != '.') --format;`, run with an
explicit step counter (`f - lo` bounds the number of iterations). -/
def backDotAux (d : List Char) (lo : Nat) : Nat → Nat → Nat
  | 0, f => f
  | k + 1, f =>
    if lo < f && cAt d (f - 1) != '.' then backDotAux d lo k (f - 1) else f

/-- Start index of the extension of a figure's path: scan back from `f`
(`end_url`) towards `lo` (`end_text`) until just after a dot. -/
def backDot (d : List Char) (lo f : Nat) : Nat := backDotAux d lo (f - lo) f

/-- One `PARSE_INLINE_TAG(start, end, html_start, html_end)` instantiation
of `parse_inline`. -/
structure InlineTag where
  tOpen : List Char
  tClose : List Char
  hOpen : List Char
  hClose : List Char
deriving DecidableEq

/-- The tag table of `parse_inline`, in the exact order the `else if` chain
tests the opening delimiters. -/
def inlineTags : List InlineTag :=
  [ ⟨"***".data, "***".data, "<strong><i>".data, "</i></strong>".data⟩,
    ⟨"**_".data, "_**".data, "<strong><i>".data, "</i></strong>".data⟩,
    ⟨"_**".data, "**_".data, "<strong><i>".data, "</i></strong>".data⟩,
    ⟨"**".data, "**".data, "<strong>".data, "</strong>".data⟩,
    ⟨"*".data, "*".data, "<i>".data, "</i>".data⟩,
    ⟨"_".data, "_".data, "<i>".data, "</i>".data⟩,
    ⟨"`".data, "`".data, "<code>".data, "</code>".data⟩,
    ⟨"\\(".data, "\\)".data, "\\(".data, "\\)".data⟩ ]

/-- First tag of the `else if` chain whose opening-delimiter condition
(`word_starts_with`) holds at position `i`; once a condition holds the C
chain commits to that branch even if its closer is missing. -/
def firstTagAt (d : List Char) (i : Nat) : Option InlineTag :=
  inlineTags.find? (fun t => word_starts_with_at d i t.tOpen)

/-- Combine one `parse_inline` loop iteration with the rest of the run:
prepend the emitted fragment, and keep the latest `r->cursor` assignment
(a later assignment made by the rest of the loop wins over `cur`). -/
def pstep (frag : List Char) (cur : Option Nat) :
    Option (List Char × Option Nat) → Option (List Char × Option Nat)
  | none => none
  | some (h, c2) => some (frag ++ h, match c2 with | some x => some x | none => cur)

/-- mite.c `parse_inline`, over document `d` starting at index `i`, with
fuel (one unit per iteration of the `while` loop). Returns the emitted
HTML and the last value assigned to `r->cursor` (only the `<? ... ?>`
branch assigns it), or `none` when the fuel runs out. -/
def parseInlineF (d : List Char) : Nat → Nat → Option (List Char × Option Nat)
  | 0, _ => none
  | fuel + 1, i =>
    let c := cAt d i
    if c == nulC || c == '\r' || c == '\n' then some ([], none)
    else if startsWithAt d i "  \n".data || startsWithAt d i "  \r\n".data then
      some ("<br>\n".data, none)
    else
      match firstTagAt d i with
      | some tg =>
        match word_ends_with d tg.tClose (i + tg.tOpen.length) with
        | some e =>
          pstep (tg.hOpen ++ escapeHtml (sliceD d (i + tg.tOpen.length) e) ++ tg.hClose)
            none (parseInlineF d fuel (e + tg.tClose.length))
        | none => pstep [cAt d i] none (parseInlineF d fuel (i + 1))
      | none =>
        if c == '[' then
          match searchUntilNl d "]".data i with
          | none => pstep (escapeHtmlChar c) none (parseInlineF d fuel (i + 1))
          | some et =>
            if cAt d (et + 1) != '(' then
              pstep (escapeHtmlChar c) none (parseInlineF d fuel (i + 1))
            else
              match searchUntilNl d ")".data (et + 2) with
              | none => some ([], none)
              | some eu =>
                pstep ("<a href=\"".data ++ sliceD d (et + 2) eu ++ "\">".data ++
                       escapeHtml (sliceD d (i + 1) et) ++ "</a>".data)
                  none (parseInlineF d fuel (eu + 1))
        else if startsWithAt d i "![".data then
          match searchUntilNl d "]".data (i + 2) with
          | none => pstep (sliceD d i (i + 2)) none (parseInlineF d fuel (i + 2))
          | some et =>
            if cAt d (et + 1) != '(' then
              pstep (sliceD d i (i + 2)) none (parseInlineF d fuel (i + 2))
            else
              match searchUntilNl d ")".data (et + 2) with
              | none => some ([], none)
              | some eu =>
                let fmt := backDot d et eu
                let fmtLen := eu - fmt
                let video :=
                  (fmtLen == 3 && sliceD d fmt eu == "mp4".data) ||
                  (fmtLen == 4 && sliceD d fmt eu == "webm".data)
                let txt := sliceD d (i + 2) et
                let url := sliceD d (et + 2) eu
                let frag :=
                  if video then
                    "<figure>\n\t<video autoplay controls muted loop playsinline width=\"100%\">\n\t\t<source src=\"".data ++
                    url ++ "\" type=\"video/".data ++ sliceD d fmt eu ++ "\" alt=\"".data ++
                    escapeHtml txt ++ "\">\n\t</video>\n\t<figcaption>".data ++ txt ++
                    "\n\t</figcaption>\n</figure>\n".data
                  else
                    "<figure>\n\t<img src=\"".data ++ url ++ "\" loading=\"lazy\" alt=\"".data ++
                    escapeHtml txt ++ "\">\n\t<figcaption>".data ++ txt ++
                    "</figcaption>\n</figure>\n".data
                pstep frag none (parseInlineF d fuel (eu + 1))
        else if startsWithAt d i "<?".data then
          match strstrIdx d "?>".data (i + 2) with
          | some e => pstep (sliceD d i (e + 2)) (some (e + 2)) (parseInlineF d fuel (e + 2))
          | none => pstep [cAt d i] none (parseInlineF d fuel (i + 1))
        else
          pstep [cAt d i] none (parseInlineF d fuel (i + 1))

/-- mite.c `parse_inline` from index `i`, with enough fuel for its scan
(every loop iteration advances `p` by at least one byte). -/
def parseInlineP (d : List Char) (i : Nat) : Option (List Char × Option Nat) :=
  parseInlineF d (d.length + 1) i

/-- mite.c `parse_inline` on a whole line/document (cursor at 0). -/
def parse_inline (d : List Char) : Option (List Char × Option Nat) :=
  parseInlineF d (d.length + 1) 0

/-- The block renderer's paragraph-closing fragment (`end_paragraph()`). -/
def closeP (inP : Bool) : List Char := if inP then "</p>\n".data else []

/-- The block renderer's list-closing fragment (`end_list()`). -/
def closeL (inL : Bool) : List Char := if inL then "</ul>\n".data else []

/-- Combine one block-renderer iteration with the rest of the run: prepend
the body fragment `bf` and front-matter fragment `ff`; fuel exhaustion and
a fatal abort propagate. -/
def rstep (bf ff : List Char) :
    Option (CResult (List Char × List Char)) → Option (CResult (List Char × List Char))
  | none => none
  | some CResult.fatal => some CResult.fatal
  | some (CResult.ok (b, f)) => some (CResult.ok (bf ++ b, ff ++ f))

/-- The tail of each block-renderer iteration:
`if (r.cursor > line_end) continue; r.cursor = (*line_end == '\n') ? line_end + 1 : line_end;`
where `cur` is the current value of `r.cursor` (as possibly reassigned by
the branch or by `parse_inline`). -/
def nextCursor (d : List Char) (cur le : Nat) : Nat :=
  if le < cur then cur else if cAt d le == '\n' then le + 1 else le

/-- mite.c `render_md_to_html`'s line loop, over the terminated buffer `d`
(the caller appends the `'\0'`), with fuel (one unit per iteration),
cursor `i`, and the `in_paragraph` / `in_list` flags. Yields the body and
front-matter buffers produced from this point on. `CResult.fatal` models
the abort/hang reached when a code-fence slice length underflows
(`code_end` before the post-`skip_after_newline` cursor: the negative
`ptrdiff_t` becomes a huge `size_t` inside `da_append_many`). -/
def renderLoopF (d : List Char) : Nat → Nat → Bool → Bool →
    Option (CResult (List Char × List Char))
  | 0, _, _, _ => none
  | fuel + 1, i, inP, inL =>
    if cAt d i == nulC then some (CResult.ok (closeP inP ++ closeL inL, []))
    else
      let le := lineEndIdx d i
      let t := skipBlanks d i
      if t == le then
        rstep (closeP inP ++ closeL inL) [] (renderLoopF d fuel (nextCursor d i le) false false)
      else if startsWithAt d t "<?".data then
        match strstrIdx d "?>".data (t + 2) with
        | some e => rstep (sliceD d t (e + 2)) [] (renderLoopF d fuel (e + 2) inP inL)
        | none => rstep [] [] (renderLoopF d fuel (nextCursor d i le) inP inL)
      else if startsWithAt d t "---".data then
        if t != 0 then
          rstep "<hr>".data [] (renderLoopF d fuel (t + 3) inP inL)
        else
          match strstrIdx d "---".data (t + 3) with
          | some e =>
            rstep [] ("<?".data ++ sliceD d (t + 3) e ++ "?>\n".data)
              (renderLoopF d fuel (e + 3) inP inL)
          | none => rstep [] [] (renderLoopF d fuel (nextCursor d i le) inP inL)
      else if cAt d t == '<' then
        let frag0 := closeP inP ++ closeL inL
        match searchUntilNl d "</".data t with
        | none =>
          rstep (frag0 ++ sliceD d t (lineEndIdx d t + 1)) []
            (renderLoopF d fuel (nextCursor d i le) false false)
        | some s =>
          match searchUntilNl d ">".data s with
          | none =>
            rstep (frag0 ++ sliceD d t (lineEndIdx d t + 1)) []
              (renderLoopF d fuel (nextCursor d i le) false false)
          | some en =>
            match parseInlineP d (en + 1) with
            | none => none
            | some (ph, pc) =>
              rstep (frag0 ++ sliceD d t (en + 1) ++ ph) []
                (renderLoopF d fuel (nextCursor d (pc.getD (en + 1)) le) false false)
      else if cAt d t == '#' then
        let lvl := hashOff (d.drop t)
        let t3 := t + lvl + spacesOff (d.drop (t + lvl))
        let tag := 'h' :: (Nat.repr lvl).data
        match parseInlineP d t3 with
        | none => none
        | some (ph, pc) =>
          rstep (closeP inP ++ closeL inL ++ "\n<".data ++ tag ++ ">".data ++ ph ++
                 "</".data ++ tag ++ ">\n".data) []
            (renderLoopF d fuel (nextCursor d (pc.getD i) le) false false)
      else if startsWithAt d t "- [ ] ".data then
        match parseInlineP d (t + 6) with
        | none => none
        | some (ph, pc) =>
          rstep (closeP inP ++ closeL inL ++ "<ul><li><input type=\"checkbox\" disabled>".data ++
                 ph ++ "</li></ul>\n".data) []
            (renderLoopF d fuel (nextCursor d (pc.getD i) le) false false)
      else if startsWithAt d t "- ".data || startsWithAt d t "* ".data then
        match parseInlineP d (t + 2) with
        | none => none
        | some (ph, pc) =>
          rstep (closeP inP ++ (if inL then [] else "<ul>\n".data) ++ "<li>".data ++ ph ++
                 "</li>\n".data) []
            (renderLoopF d fuel (nextCursor d (pc.getD i) le) false true)
      else if startsWithAt d t "> ".data then
        match parseInlineP d (t + 2) with
        | none => none
        | some (ph, pc) =>
          rstep (closeP inP ++ closeL inL ++ "<blockquote>".data ++ ph ++
                 "</blockquote>\n".data) []
            (renderLoopF d fuel (nextCursor d (pc.getD i) le) false false)
      else if startsWithAt d t "```".data then
        match (if t == 0 then strstrIdx d "```".data (t + 3) else none) with
        | some e =>
          let t2 := skipAfterNl d t
          if e < t2 then some CResult.fatal
          else
            rstep [] ("<?".data ++ sliceD d t2 e ++ "?>\n".data)
              (renderLoopF d fuel (e + 3) inP inL)
        | none =>
          let ce := (strstrIdx d "```".data (t + 3)).getD d.length
          let t2 := skipAfterNl d t
          if ce < t2 then some CResult.fatal
          else
            rstep (closeP inP ++ closeL inL ++ "<pre><code>\n".data ++
                   escapeHtml (sliceD d t2 ce) ++ "</code></pre>\n".data) []
              (renderLoopF d fuel (ce + 3) false false)
      else if startsWithAt d t "![".data then
        match parseInlineP d t with
        | none => none
        | some (ph, pc) =>
          rstep (closeP inP ++ ph) []
            (renderLoopF d fuel (nextCursor d (pc.getD i) le) false inL)
      else
        match parseInlineP d t with
        | none => none
        | some (ph, pc) =>
          rstep (closeL inL ++ (if inP then [] else "\n<p>\n".data) ++ ph ++ "\n".data) []
            (renderLoopF d fuel (nextCursor d (pc.getD i) le) true false)

/-- mite.c `render_md_to_html`: run the line loop on `md ++ ['\0']` (as
`render_page` does after reading the file) and NUL-terminate each
non-empty output buffer (`if (out->count) da_append(out, '\0');`). -/
def render_md_to_html (md : List Char) : Option (CResult (List Char × List Char)) :=
  let d := md ++ [nulC]
  match renderLoopF d (d.length + 1) 0 false false with
  | none => none
  | some CResult.fatal => some CResult.fatal
  | some (CResult.ok (b, f)) =>
    some (CResult.ok
      (if b.isEmpty then b else b ++ [nulC], if f.isEmpty then f else f ++ [nulC]))

/-- Leading run of spaces/tabs counted by the first loop of
`sv_trim_empty_lines` (bytes 32 and 9). -/
def stOff : List Nat → Nat
  | [] => 0
  | b :: bs => if b == 32 || b == 9 then stOff bs + 1 else 0

/-- Is byte `b` one of space, tab, newline, carriage return? (the right-trim
set of the transpiler's trimming functions). -/
def isWsByte (b : Nat) : Bool := b == 32 || b == 9 || b == 10 || b == 13

/-- The right-trim loop shared by `sv_trim` and `sv_trim_empty_lines`:
`r` walks back over trailing whitespace and the view is cut to `r + 1`. -/
def rtrimWs (l : List Nat) : List Nat := (l.reverse.dropWhile isWsByte).reverse

/-- mite.c `sv_trim_empty_lines`: count the leading spaces/tabs; drop them
only when the byte after that run's successor position is a newline
(the C condition tests `items[empty+1] == '\n'` under the bound
`empty+1 < count`); then right-trim all trailing whitespace. -/
def sv_trim_empty_lines (l : List Nat) : List Nat :=
  let e := stOff l
  let l1 := if e + 1 < l.length ∧ l.get? (e + 1) = some 10 then l.drop e else l
  rtrimWs l1

/-- mite.c `to_hex_char`. -/
def to_hex_char (n : Nat) : Char :=
  if n < 10 then Char.ofNat ('0'.toNat + n) else Char.ofNat ('a'.toNat + n - 10)

/-- mite.c `sv_to_byte_array`: encode each byte as `\xHH` (four characters)
and count the encoded bytes, stopping at the first NUL byte (the
`if (c == '\0') break;` inside the loop). Input bytes are reduced mod 256,
the `(uint8_t)` cast of the C code. Returns the escaped text and the count. -/
def sv_to_byte_array : List Nat → List Char × Nat
  | [] => ([], 0)
  | b :: bs =>
    let c := b % 256
    if c == 0 then ([], 0)
    else
      let r := sv_to_byte_array bs
      ('\\' :: 'x' :: to_hex_char (c / 16) :: to_hex_char (c % 16) :: r.1, r.2 + 1)

/-- mite.c `byte_array_to_c_code`: emit an `OUT_HTML("...", n)` instruction,
except that an empty byte array, or a byte array holding exactly the single
escaped newline byte (`count == 1` and the four characters `\x0a`), emits
nothing. The returned text is what the function appends to `out`
(`[]` = no instruction). -/
def byte_array_to_c_code (ba : List Char × Nat) : List Char :=
  if ba.2 == 0 then []
  else if ba.2 == 1 && ba.1.length == 4 && ba.1 == "\\x0a".data then []
  else "OUT_HTML(\"".data ++ ba.1 ++ "\", ".data ++ (Nat.repr ba.2).data ++ ")\n".data

/-- The literal-mode (html-mode) arm of `render_html_to_c` for one span:
trim it with `sv_trim_empty_lines`, lower it to a byte array with
`sv_to_byte_array`, and emit (or suppress) the instruction with
`byte_array_to_c_code`. -/
def emit_literal (span : List Nat) : List Char :=
  byte_array_to_c_code (sv_to_byte_array (sv_trim_empty_lines span))

/-- Value of a lowercase-hex digit character, as the C compiler decodes a
`\xHH` escape in the generated source. -/
def hex_val (c : Char) : Nat :=
  if 'a'.toNat ≤ c.toNat then c.toNat - 'a'.toNat + 10 else c.toNat - '0'.toNat

/-- Decode the escaped byte-literal text emitted by `sv_to_byte_array`:
each `\xHH` group denotes one byte (this is the decoding the claim's
`decode(encode(bytes))` round trip refers to — the C compiler's reading
of the generated string literal). -/
def decode_c_hex : List Char → List Nat
  | '\\' :: 'x' :: h1 :: h2 :: rest => (hex_val h1 * 16 + hex_val h2) :: decode_c_hex rest
  | _ => []

/-- One `(key, value)` pair of the generated program's `SiteMap`. The value
is `const char *` in C and may be `NULL` (`none`). Keys set through the
engine's macros are string literals, never `NULL`. -/
structure SiteMapEntry where
  key : String
  value : Option String
deriving DecidableEq

/-- The generated program's `SiteMap`: an ordered dynamic array of entries. -/
abbrev SiteMap := List SiteMapEntry

/-- mite.c (second stage) `site_map_set`: grow and write at `count` — an
unconditional append, never an overwrite. -/
def site_map_set (m : SiteMap) (k : String) (v : Option String) : SiteMap :=
  m ++ [⟨k, v⟩]

/-- mite.c (second stage) `site_map_get`: linear scan, the first entry with
a matching key decides; returns `NULL` (`none`) when no key matches. -/
def site_map_get : SiteMap → String → Option String
  | [], _ => none
  | e :: es, k => if e.key == k then e.value else site_map_get es k

/-- mite.c (second stage) `site_map_has`: linear scan, true on the first
matching key. -/
def site_map_has : SiteMap → String → Bool
  | [], _ => false
  | e :: es, k => if e.key == k then true else site_map_has es k

/-- mite.c (second stage) `site_map_equals`: the first entry with a matching
key decides, by comparing its value with `strcmp` (on a `NULL` stored value
the C `strcmp` would be undefined behaviour; the engine's macros only store
string literals, and the embedding returns `false` there). -/
def site_map_equals : SiteMap → String → String → Bool
  | [], _, _ => false
  | e :: es, k, v =>
    if e.key == k then (match e.value with | some s => s == v | none => false)
    else site_map_equals es k v

/-- A registered template of the generated program (`SiteTemplate`): its
name and its include/layout flag. The rendering function pointer is left
abstract — dispatch outcomes are recorded by name. -/
structure SiteTemplate where
  name : String
  is_include : Bool
deriving DecidableEq

/-- mite.c (second stage) `find_template`: `NULL` name gives `NULL`;
otherwise a linear scan for the first name match, and on a miss the
function prints an error and calls `exit(1)` — a fatal termination of the
generated program, not a `NULL` result (the trailing `return NULL;` in the
C source is unreachable). -/
def find_template (ts : List SiteTemplate) (n : Option String) :
    CResult (Option SiteTemplate) :=
  match n with
  | none => CResult.ok none
  | some s =>
    match ts.find? (fun t => t.name == s) with
    | some t => CResult.ok (some t)
    | none => CResult.fatal

/-- How the driver emitted by `second_stage_codegen` renders one page. -/
inductive RenderChoice where
  | usedLayout (tname : String) : RenderChoice
  | standalone : RenderChoice
deriving DecidableEq

/-- The per-page block that `second_stage_codegen` splices into the
generated `main`:
`SiteTemplate* st = find_template(&global.templates, page->layout);`
`if (st) st->function(&out, page, render_<name>); else render_<name>(&out, page);`
recorded as which routine the driver would run, or a fatal exit. -/
def driver_render_page (ts : List SiteTemplate) (layout : Option String) :
    CResult RenderChoice :=
  match find_template ts layout with
  | CResult.fatal => CResult.fatal
  | CResult.ok (some st) => CResult.ok (RenderChoice.usedLayout st.name)
  | CResult.ok none => CResult.ok RenderChoice.standalone

/-- The `INCLUDE(mitename)` macro of the second stage:
`SiteTemplate* st = find_template(...); if (st && st->is_include) st->function(...);`
returns whether the named template was invoked, or a fatal exit. -/
def include_invoke (ts : List SiteTemplate) (mitename : Option String) :
    CResult Bool :=
  match find_template ts mitename with
  | CResult.fatal => CResult.fatal
  | CResult.ok (some st) => CResult.ok st.is_include
  | CResult.ok none => CResult.ok false

/-- Kind of a directory entry as reported by `readdir` (`d_type`). -/
inductive FType where
  | reg : FType
  | dir : FType
  | other : FType
deriving DecidableEq

/-- An abstract directory entry: name, kind, and (for directories) the
listing that `opendir`/`readdir` would produce, in traversal order. -/
structure FNode where
  name : String
  ftype : FType
  children : List FNode

/-- mite.c `ends_with`. -/
def ends_with (name ext : List Char) : Bool :=
  if name.length < ext.length then false
  else name.drop (name.length - ext.length) == ext

/-- mite.c `is_mite_file`. -/
def is_mite_file (name : String) : Bool := ends_with name.data ".mite".data

/-- mite.c `is_md_file`. -/
def is_md_file (name : String) : Bool := ends_with name.data ".md".data

/-- A discovered page (`MitePage`), before rendering: sanitized name,
source path and output path. -/
structure MitePage where
  name : String
  md_path : String
  final_html_path : String
deriving DecidableEq

/-- A registered template file (`MiteTemplate`), before rendering. -/
structure MiteTemplate where
  name : String
  path : String
  is_include : Bool
deriving DecidableEq

/-- The name computation of `register_md_file`: drop the leading `./`,
cut a trailing `.md` (only when the remaining length exceeds 3), and map
every non-alphanumeric byte to `_`. -/
def page_name_of (md_path : String) : String :=
  let base := md_path.data.drop 2
  let len := if base.length > 3 ∧ ends_with base ".md".data then base.length - 3 else base.length
  ⟨(base.take len).map (fun c => if c.isAlphanum then c else '_')⟩

/-- The page record built by mite.c `register_md_file` for directory
`dir` and file `nm`: `md_path = dir/nm` (`join_path`), and
`final_html_path = dir/index.html` — unconditionally the sibling
`index.html` of the source file's directory. -/
def mk_md_page (dir nm : String) : MitePage :=
  ⟨page_name_of (dir ++ "/" ++ nm), dir ++ "/" ++ nm, dir ++ "/" ++ "index.html"⟩

/-- mite.c `register_md_file`: append the page built by `mk_md_page`. -/
def register_md_file (ps : List MitePage) (dir nm : String) : List MitePage :=
  ps ++ [mk_md_page dir nm]

/-- mite.c `register_mite_file`: append a template whose name is the file
name with a trailing `.mite` cut (only when the name is longer than 5). -/
def register_mite_file (ts : List MiteTemplate) (dir nm : String) (inc : Bool) :
    List MiteTemplate :=
  let tname := if nm.length > 5 ∧ ends_with nm.data ".mite".data
               then (⟨nm.data.take (nm.length - 5)⟩ : String) else nm
  ts ++ [⟨tname, dir ++ "/" ++ nm, inc⟩]

/-- The innermost loop of `search_files` over a content subdirectory's
listing: every regular `.md` file is registered as a page (there is no
break after the first match). -/
def scan_content_subdir (ps : List MitePage) (path : String) :
    List FNode → List MitePage
  | [] => ps
  | f :: rest =>
    if f.ftype = FType.reg then
      if is_md_file f.name then
        scan_content_subdir (register_md_file ps path f.name) path rest
      else scan_content_subdir ps path rest
    else scan_content_subdir ps path rest

/-- The middle loop of `search_files` over a top-level directory's listing,
with `dir_type` 1 = content, 2 = layout, 3 = include. -/
def scan_subdir (acc : List MitePage × List MiteTemplate) (dirType : Nat)
    (subdirPath : String) : List FNode → List MitePage × List MiteTemplate
  | [] => acc
  | s :: rest =>
    if (s.ftype ≠ FType.reg ∧ s.ftype ≠ FType.dir) ∨ s.name = "." ∨ s.name = ".." then
      scan_subdir acc dirType subdirPath rest
    else
      let path := subdirPath ++ "/" ++ s.name
      let acc1 :=
        if s.ftype = FType.reg then
          if dirType = 1 ∧ is_md_file s.name then
            (register_md_file acc.1 subdirPath s.name, acc.2)
          else if dirType > 1 ∧ is_mite_file s.name then
            (acc.1, register_mite_file acc.2 subdirPath s.name (dirType = 3))
          else acc
        else acc
      let acc2 :=
        if dirType = 1 ∧ s.ftype = FType.dir then
          (scan_content_subdir acc1.1 path s.children, acc1.2)
        else acc1
      scan_subdir acc2 dirType subdirPath rest

/-- The outer loop of `search_files` over the working directory's listing
(POSIX branch): `index.md` / `rss.md` at top level register as pages; a
directory named `layout` / `include` registers its `.mite` files as
templates; any other directory is a content directory. -/
def search_files_go (acc : List MitePage × List MiteTemplate) :
    List FNode → List MitePage × List MiteTemplate
  | [] => acc
  | e :: rest =>
    if (e.ftype ≠ FType.reg ∧ e.ftype ≠ FType.dir) ∨ e.name = "." ∨ e.name = ".." then
      search_files_go acc rest
    else if e.ftype = FType.reg then
      if e.name = "index.md" ∨ e.name = "rss.md" then
        search_files_go (register_md_file acc.1 "." e.name, acc.2) rest
      else search_files_go acc rest
    else
      let dirType : Nat := if e.name = "layout" then 2 else if e.name = "include" then 3 else 1
      search_files_go (scan_subdir acc dirType ("." ++ "/" ++ e.name) e.children) rest

/-- mite.c `search_files` on an abstract listing of the working directory. -/
def search_files (root : List FNode) : List MitePage × List MiteTemplate :=
  search_files_go ([], []) root

/-- Hex encoding and decoding of one nibble are mutually inverse. -/
theorem hex_val_to_hex_char : ∀ n, n < 16 → hex_val (to_hex_char n) = n := by decide

/-- Whitespace-only spans stay whitespace-only after dropping a prefix. -/
theorem all_isWsByte_drop {l : List Nat} (h : ∀ b ∈ l, isWsByte b = true) (n : Nat) :
    ∀ b ∈ l.drop n, isWsByte b = true :=
  fun b hb => h b (List.mem_of_mem_drop hb)

/-- A span of whitespace bytes right-trims to nothing. -/
theorem rtrimWs_all_ws {l : List Nat} (h : ∀ b ∈ l, isWsByte b = true) :
    rtrimWs l = [] := by
  unfold rtrimWs
  have hd : l.reverse.dropWhile isWsByte = [] := by
    rw [List.dropWhile_eq_nil_iff]
    intro x hx
    exact h x (List.mem_reverse.mp hx)
  rw [hd, List.reverse_nil]

/-- `sv_trim_empty_lines` of a whitespace-only span is empty. -/
theorem sv_trim_empty_lines_all_ws {l : List Nat} (h : ∀ b ∈ l, isWsByte b = true) :
    sv_trim_empty_lines l = [] := by
  simp only [sv_trim_empty_lines]
  split
  · exact rtrimWs_all_ws (all_isWsByte_drop h _)
  · exact rtrimWs_all_ws h

/-- Appending an entry does not disturb an earlier first match of
`site_map_get`. -/
theorem site_map_get_append_first (m : SiteMap) (k : String) (v : Option String)
    (hk : site_map_has m k = true) :
    site_map_get (m ++ [⟨k, v⟩]) k = site_map_get m k := by
  induction m with
  | nil => simp [site_map_has] at hk
  | cons e es ih =>
    by_cases he : (e.key == k) = true
    · simp [site_map_get, he]
    · simp [site_map_has, he] at hk
      simp [site_map_get, he, ih hk]

/-- C1 (counterexample): in the generated program, resolving the default
layout name `"default"` against an empty template registry is not a
standalone render — `find_template` reports an error and exits, so the
per-page driver block terminates the execution fatally. -/
theorem c1_counterexample :
    driver_render_page [] (some "default") = CResult.fatal ∧
    driver_render_page [] (some "default") ≠ CResult.ok RenderChoice.standalone := by
  decide

/-- C1 (amended): the generated driver renders a page standalone only when
the page's layout field is `NULL`; a non-`NULL` layout name that matches no
registered template (including the default layout name) terminates the
generated program, exactly as invoking an unregistered include name does. -/
theorem c1_amended :
    (∀ ts : List SiteTemplate,
      driver_render_page ts none = CResult.ok RenderChoice.standalone)
    ∧ (∀ (ts : List SiteTemplate) (n : String),
        ts.find? (fun t => t.name == n) = none →
        driver_render_page ts (some n) = CResult.fatal ∧
        include_invoke ts (some n) = CResult.fatal) := by
  constructor
  · intro ts; rfl
  · intro ts n h
    exact ⟨by simp [driver_render_page, find_template, h],
           by simp [include_invoke, find_template, h]⟩

/-- C1 (witness): with one registered template named `"post"`, a `NULL`
layout renders standalone, and the unmatched name `"default"` is fatal for
both layout resolution and include invocation. -/
theorem c1_amended_witness :
    driver_render_page [⟨"post", false⟩] none = CResult.ok RenderChoice.standalone ∧
    driver_render_page [⟨"post", false⟩] (some "default") = CResult.fatal ∧
    include_invoke [⟨"post", false⟩] (some "default") = CResult.fatal :=
  ⟨c1_amended.1 _,
   (c1_amended.2 [⟨"post", false⟩] "default" (by decide)).1,
   (c1_amended.2 [⟨"post", false⟩] "default" (by decide)).2⟩

/-- C2 (counterexample): a literal span consisting of the single NUL byte
does not round-trip — `sv_to_byte_array` stops at NUL, so the decoded
instruction is empty and the carried count is `0`, not `1`. -/
theorem c2_counterexample :
    decode_c_hex (sv_to_byte_array [0]).1 ≠ [0] ∧ (sv_to_byte_array [0]).2 = 0 := by
  decide

/-- C2 (amended): for every NUL-free byte sequence (each byte nonzero and
below 256), decoding the emitted hex-escaped byte literal reproduces the
original bytes exactly — including bytes outside printable ASCII — and the
carried byte count equals the sequence's length. -/
theorem c2_amended :
    ∀ bs : List Nat, (∀ b ∈ bs, 0 < b ∧ b < 256) →
      decode_c_hex (sv_to_byte_array bs).1 = bs ∧
      (sv_to_byte_array bs).2 = bs.length := by
  intro bs h
  induction bs with
  | nil => exact ⟨rfl, rfl⟩
  | cons b bs ih =>
    obtain ⟨hb0, hb256⟩ := h b (List.mem_cons_self b bs)
    have hmod : b % 256 = b := Nat.mod_eq_of_lt hb256
    have ihr := ih (fun x hx => h x (List.mem_cons_of_mem _ hx))
    have hne : (b % 256 == 0) = false := by simp [hmod]; omega
    constructor
    · have h1 : hex_val (to_hex_char (b % 256 / 16)) = b / 16 := by
        rw [hmod]; exact hex_val_to_hex_char _ (Nat.div_lt_of_lt_mul (by omega))
      have h2 : hex_val (to_hex_char (b % 256 % 16)) = b % 16 := by
        rw [hmod]; exact hex_val_to_hex_char _ (Nat.mod_lt _ (by omega))
      simp only [sv_to_byte_array, hne, Bool.false_eq_true, if_false,
        decode_c_hex, h1, h2, ihr.1]
      have hdm := Nat.div_add_mod b 16
      congr 1
      omega
    · simp only [sv_to_byte_array, hne, Bool.false_eq_true, if_false,
        List.length_cons, ihr.2]

/-- C2 (witness): the NUL-free sequence `[1, 10, 255]` — a control byte, a
newline and a byte outside ASCII — round-trips exactly with count 3. -/
theorem c2_amended_witness :
    decode_c_hex (sv_to_byte_array [1, 10, 255]).1 = [1, 10, 255] ∧
    (sv_to_byte_array [1, 10, 255]).2 = 3 :=
  c2_amended [1, 10, 255] (by decide)

/-- C3: in `parse_inline`, when an opening delimiter of the emphasis chain
matches at the cursor (committing the `else if` chain to that branch) but
`word_ends_with` finds no closing delimiter before the line ends, the
iteration emits exactly the single character under the cursor and rescans
from one character ahead; in particular `"**open"` renders to the literal
text `**open` with no tags. -/
theorem c3_unterminated_emphasis :
    (∀ (d : List Char) (i fuel : Nat) (tg : InlineTag),
      (cAt d i == nulC || cAt d i == '\r' || cAt d i == '\n') = false →
      (startsWithAt d i "  \n".data || startsWithAt d i "  \r\n".data) = false →
      firstTagAt d i = some tg →
      word_ends_with d tg.tClose (i + tg.tOpen.length) = none →
      parseInlineF d (fuel + 1) i = pstep [cAt d i] none (parseInlineF d fuel (i + 1)))
    ∧ parse_inline "**open".data = some ("**open".data, none) := by
  constructor
  · intro d i fuel tg h1 h2 h3 h4
    simp only [parseInlineF, h1, h2, h3, h4, Bool.false_eq_true, if_false]
  · decide

/-- C3 (witness): at the start of `"**open"` the `**` opener matches, no
closer exists, and the step emits one literal character and advances one. -/
theorem c3_unterminated_emphasis_witness :
    parseInlineF "**open".data 7 0 =
      pstep [cAt "**open".data 0] none (parseInlineF "**open".data 6 1) :=
  c3_unterminated_emphasis.1 "**open".data 0 6
    ⟨"**".data, "**".data, "<strong>".data, "</strong>".data⟩
    (by decide) (by decide) (by decide) (by decide)

/-- C4 (counterexample): a content directory `post` with one subdirectory
`a` holding two markdown files registers BOTH as pages — the inner
discovery loop has no first-match cut, so the subdirectory contributes two
pages, not at most one. -/
theorem c4_counterexample :
    ((search_files [⟨"post", FType.dir,
        [⟨"a", FType.dir, [⟨"x.md", FType.reg, []⟩, ⟨"y.md", FType.reg, []⟩]⟩]⟩]).1.map
      MitePage.md_path = ["./post/a/x.md", "./post/a/y.md"])
    ∧ ¬ ((search_files [⟨"post", FType.dir,
        [⟨"a", FType.dir, [⟨"x.md", FType.reg, []⟩, ⟨"y.md", FType.reg, []⟩]⟩]⟩]).1.length ≤ 1) := by
  decide

/-- C4 (amended): the content-subdirectory scan registers every regular
markdown file of the listing as a page, in listing order — not only the
first one encountered. -/
theorem c4_amended :
    ∀ (path : String) (files : List FNode) (ps : List MitePage),
      scan_content_subdir ps path files =
        ps ++ (files.filter
          (fun f => decide (f.ftype = FType.reg) && is_md_file f.name)).map
          (fun f => mk_md_page path f.name) := by
  intro path files
  induction files with
  | nil => intro ps; simp [scan_content_subdir]
  | cons f rest ih =>
    intro ps
    by_cases hr : f.ftype = FType.reg
    · by_cases hm : is_md_file f.name = true
      · simp [scan_content_subdir, hr, hm, ih, register_md_file]
      · simp [scan_content_subdir, hr, hm, ih]
    · simp [scan_content_subdir, hr, ih]

/-- C5: a document whose very first line starts with `---` has everything
up to the next `---` occurrence wrapped as one raw-code region and sent to
the front-matter buffer, contributing nothing to the body (first
conjunct, for every document and every match position); the particular
document `---\nA\n---\nB\n` yields front matter `A` and a body identical
to rendering `B\n` alone; a triple-backtick fence at position zero is
accepted as the alternate front-matter delimiter; and a `---` line that is
not at the start of the document produces a horizontal rule in the body. -/
theorem c5_front_matter :
    (∀ (rest : List Char) (fuel e : Nat),
      strstrIdx ('-' :: '-' :: '-' :: rest) "---".data 3 = some e →
      renderLoopF ('-' :: '-' :: '-' :: rest) (fuel + 1) 0 false false =
        rstep [] ("<?".data ++ sliceD ('-' :: '-' :: '-' :: rest) 3 e ++ "?>\n".data)
          (renderLoopF ('-' :: '-' :: '-' :: rest) fuel (e + 3) false false))
    ∧ render_md_to_html "---\nA\n---\nB\n".data =
        some (CResult.ok ("\n<p>\nB\n</p>\n\x00".data, "<?\nA\n?>\n\x00".data))
    ∧ render_md_to_html "B\n".data = some (CResult.ok ("\n<p>\nB\n</p>\n\x00".data, []))
    ∧ render_md_to_html "```\nA\n```\nB\n".data =
        some (CResult.ok ("\n<p>\nB\n</p>\n\x00".data, "<?A\n?>\n\x00".data))
    ∧ render_md_to_html "A\n---\nB\n".data =
        some (CResult.ok ("\n<p>\nA\n<hr></p>\n\n<p>\nB\n</p>\n\x00".data, [])) := by
  refine ⟨?_, by decide, by decide, by decide, by decide⟩
  intro rest fuel e h
  simp [renderLoopF, cAt, skipBlanks, blanksOff, lineEndIdx, firstStopOff,
    startsWithAt, List.isPrefixOf, nulC, h]

/-- C5 (witness): on `---\nA\n---\nB\n` the closing `---` sits at index 6
and the first renderer step moves `\nA\n` into the front-matter buffer. -/
theorem c5_front_matter_witness :
    renderLoopF ('-' :: '-' :: '-' :: "\nA\n---\nB\n".data) 13 0 false false =
      rstep [] ("<?".data ++ sliceD ('-' :: '-' :: '-' :: "\nA\n---\nB\n".data) 3 6 ++
                "?>\n".data)
        (renderLoopF ('-' :: '-' :: '-' :: "\nA\n---\nB\n".data) 12 (6 + 3) false false) :=
  c5_front_matter.1 "\nA\n---\nB\n".data 12 6 (by decide)

/-- C6: a literal-mode span that is entirely whitespace produces no
emit-literal instruction (the trim leaves nothing and an empty byte array
is suppressed), and a byte array carrying exactly the single newline byte
is suppressed by the dedicated `\x0a` check of `byte_array_to_c_code`. -/
theorem c6_blank_or_newline_span :
    (∀ span : List Nat, (∀ b ∈ span, isWsByte b = true) → emit_literal span = [])
    ∧ byte_array_to_c_code (sv_to_byte_array [10]) = [] := by
  constructor
  · intro span h
    unfold emit_literal
    rw [sv_trim_empty_lines_all_ws h]
    rfl
  · decide

/-- C6 (witness): a span of spaces, a tab, a carriage return and newlines
emits nothing. -/
theorem c6_blank_or_newline_span_witness : emit_literal [32, 9, 13, 10, 32] = [] :=
  c6_blank_or_newline_span.1 [32, 9, 13, 10, 32] (by decide)

/-- C7: `site_map_set` appends unconditionally (so duplicate keys are all
retained and nothing is overwritten, and a `get` that found a match keeps
finding the same one after any `set`), and `site_map_get`, `site_map_has`
and `site_map_equals` each decide their result from the first entry in
insertion order whose key matches. -/
theorem c7_site_map :
    (∀ (m : SiteMap) (k : String) (v : Option String),
       site_map_set m k v = m ++ [⟨k, v⟩] ∧
       (site_map_set m k v).length = m.length + 1)
    ∧ (∀ (m : SiteMap) (k : String) (v : Option String),
       site_map_has m k = true →
       site_map_get (site_map_set m k v) k = site_map_get m k)
    ∧ (∀ (m1 m2 : SiteMap) (en : SiteMapEntry) (k : String),
       (∀ e2 ∈ m1, e2.key ≠ k) → en.key = k →
       site_map_get (m1 ++ en :: m2) k = en.value ∧
       site_map_has (m1 ++ en :: m2) k = true ∧
       ∀ (s v : String), en.value = some s →
         site_map_equals (m1 ++ en :: m2) k v = (s == v)) := by
  refine ⟨fun m k v => ⟨rfl, by simp [site_map_set]⟩,
          fun m k v h => site_map_get_append_first m k v h, ?_⟩
  intro m1 m2 en k h1 h2
  induction m1 with
  | nil =>
    have hb : (en.key == k) = true := by simp [h2]
    refine ⟨by simp [site_map_get, hb], by simp [site_map_has, hb], ?_⟩
    intro s v hs
    simp [site_map_equals, hb, hs]
  | cons a m1 ih =>
    have ha : (a.key == k) = false := by
      simp only [beq_eq_false_iff_ne, ne_eq]
      exact h1 a (List.mem_cons_self _ _)
    obtain ⟨g1, g2, g3⟩ := ih (fun e2 he2 => h1 e2 (List.mem_cons_of_mem _ he2))
    exact ⟨by simpa [site_map_get, ha] using g1,
           by simpa [site_map_has, ha] using g2,
           fun s v hs => by simpa [site_map_equals, ha] using g3 s v hs⟩

/-- C7 (witness): with entries `a↦1`, `k↦x`, `k↦y` in insertion order, the
first matching entry `k↦x` decides `get`, `has` and `equals`. -/
theorem c7_site_map_witness :
    site_map_get ([⟨"a", some "1"⟩] ++ (⟨"k", some "x"⟩ : SiteMapEntry) ::
      [⟨"k", some "y"⟩]) "k" = some "x" ∧
    site_map_has ([⟨"a", some "1"⟩] ++ (⟨"k", some "x"⟩ : SiteMapEntry) ::
      [⟨"k", some "y"⟩]) "k" = true ∧
    site_map_equals ([⟨"a", some "1"⟩] ++ (⟨"k", some "x"⟩ : SiteMapEntry) ::
      [⟨"k", some "y"⟩]) "k" "y" = ("x" == "y") :=
  ⟨(c7_site_map.2.2 [⟨"a", some "1"⟩] [⟨"k", some "y"⟩] ⟨"k", some "x"⟩ "k"
      (by decide) rfl).1,
   (c7_site_map.2.2 [⟨"a", some "1"⟩] [⟨"k", some "y"⟩] ⟨"k", some "x"⟩ "k"
      (by decide) rfl).2.1,
   (c7_site_map.2.2 [⟨"a", some "1"⟩] [⟨"k", some "y"⟩] ⟨"k", some "x"⟩ "k"
      (by decide) rfl).2.2 "x" "y" rfl⟩

/-- C8 (counterexample): the feed page `rss.md` discovered at top level IS
mapped to the sibling `index.html` of its directory (`./index.html`), so
the claimed direct-output exception does not exist in discovery. -/
theorem c8_counterexample :
    ((search_files [⟨"rss.md", FType.reg, []⟩]).1.map MitePage.md_path = ["./rss.md"])
    ∧ ((search_files [⟨"rss.md", FType.reg, []⟩]).1.map MitePage.final_html_path =
        ["./index.html"]) := by
  decide

/-- C8 (amended): every registration maps the page's output path to the
sibling `index.html` of its source directory, with no exception — pages
named for direct output (such as the feed page) get their real output path
only later, when their front matter overwrites the page record's `output`
field in the generated program. -/
theorem c8_amended :
    ∀ (ps : List MitePage) (dir nm : String),
      (register_md_file ps dir nm).map MitePage.final_html_path =
        ps.map MitePage.final_html_path ++ [dir ++ "/" ++ "index.html"] := by
  intro ps dir nm
  simp [register_md_file, mk_md_page]

/-- C9: the block renderer is NOT total — a code fence that closes on the
same line it opens (closer before the fence line's newline) makes
`code_end - trimmed` negative, which as a `size_t` drives the dynamic
array into an out-of-bounds copy / unbounded growth loop, so the run on
`A\n```x```\n` aborts instead of producing output, while an ordinary
document of the same shape renders fine. -/
theorem c9_fence_crash :
    render_md_to_html "A\n```x```\n".data = some CResult.fatal ∧
    render_md_to_html "A\n".data = some (CResult.ok ("\n<p>\nA\n</p>\n\x00".data, [])) := by
  decide

/-- C10: when every stored value is non-`NULL`, `site_map_has` answers true
exactly when `site_map_get` answers non-`NULL`; and with a `NULL` stored
value the two disagree — `has` is true while `get` returns `NULL`. -/
theorem c10_has_iff_get :
    (∀ (m : SiteMap) (k : String), (∀ e ∈ m, e.value ≠ none) →
       (site_map_has m k = true ↔ site_map_get m k ≠ none))
    ∧ site_map_has [⟨"k", none⟩] "k" = true
    ∧ site_map_get [⟨"k", none⟩] "k" = none := by
  refine ⟨?_, by decide, by decide⟩
  intro m k h
  induction m with
  | nil => simp [site_map_has, site_map_get]
  | cons e es ih =>
    by_cases he : (e.key == k) = true
    · simp [site_map_has, site_map_get, he, h e (List.mem_cons_self _ _)]
    · simp only [site_map_has, site_map_get, he, Bool.false_eq_true, if_false]
      exact ih (fun x hx => h x (List.mem_cons_of_mem _ hx))

/-- C10 (witness): on the one-entry store `a↦b` the equivalence holds. -/
theorem c10_has_iff_get_witness :
    site_map_has [⟨"a", some "b"⟩] "a" = true ↔
    site_map_get [⟨"a", some "b"⟩] "a" ≠ none :=
  c10_has_iff_get.1 [⟨"a", some "b"⟩] "a" (by decide)
